import Mathlib

/-!
Shallow embedding of the agent-coordination core of the clinical research
assistant (src/src/services/agent_coordinator.py together with the model,
agent and MCP-configuration modules it depends on), with theorems checking
the natural-language specification against this embedding.

Conventions used throughout:
  - Python strings are Lean String values; Python string formatting is
    translated into explicit concatenation.
  - Python dict values produced by pydantic model_dump are represented by
    the DVal type below; plan dictionaries flowing through the coordinator
    are represented by the typed TaskPlan structure they are dumps of.
  - Qt signal emissions are collected into an explicit list of Sig values.
  - The asyncio event loop and worker thread are represented by explicit
    boolean fields of CoordState, and the body of the approval gate is
    represented as a list of atomic micro actions interpreted by a small
    step interpreter, so interleavings with the foreground thread are
    explicit.
-/

/-- Python list enumeration: enumFrom n [a, b, ...] = [(n, a), (n+1, b), ...],
mirroring the enumerate(xs, n) calls in the source. -/
def enumFrom {α : Type} (n : Nat) : List α → List (Nat × α)
  | [] => []
  | x :: rest => (n, x) :: enumFrom (n + 1) rest

/-- Python str.join: joinSep sep [a, b, c] = a ++ sep ++ b ++ sep ++ c. -/
def joinSep (sep : String) : List String → String
  | [] => ""
  | [x] => x
  | x :: y :: rest => x ++ sep ++ joinSep sep (y :: rest)

/-- Containment of one string in another, as concatenation context. -/
def StrHasSub (hay sub : String) : Prop := ∃ p q, hay = p ++ sub ++ q

/-- Boolean test that a list starts with another list. -/
def listStartsWith {α : Type} [DecidableEq α] : List α → List α → Bool
  | _, [] => true
  | [], _ :: _ => false
  | a :: as, b :: bs => decide (a = b) && listStartsWith as bs

/-- Boolean sublist (contiguous) test. -/
def listHasSub {α : Type} [DecidableEq α] : List α → List α → Bool
  | [], sub => sub.isEmpty
  | a :: as, sub => listStartsWith (a :: as) sub || listHasSub as sub

/-- Python membership test sub in hay on strings. -/
def pyIn (sub hay : String) : Bool := listHasSub hay.data sub.data

/-- Python str.lower, characterwise. -/
def strLower (s : String) : String := ⟨s.data.map Char.toLower⟩

/-- Dictionary-shaped values: the image of pydantic model_dump and the dict
payloads carried by approval-request signals. -/
inductive DVal where
  | str (s : String)
  | bool (b : Bool)
  | int (n : Int)
  | list (xs : List DVal)
  | dict (kvs : List (String × DVal))

/-- PlanStep from src/src/agents/orchestrator.py: one step of the plan an
orchestrator run may return. -/
structure PlanStep where
  description : String
  agent : String
  requires_approval : Bool
  inputs : List (String × String)
deriving DecidableEq, Repr

/-- TaskPlan from src/src/agents/orchestrator.py: the structured plan output
of the orchestrator agent. -/
structure TaskPlan where
  goal : String
  steps : List PlanStep
  estimated_agents : List String
deriving DecidableEq, Repr

/-- Serialization of a PlanStep to its dict representation, following
pydantic model_dump over the fields declared in the source model. -/
def PlanStep.model_dump (s : PlanStep) : DVal :=
  .dict [("description", .str s.description),
         ("agent", .str s.agent),
         ("requires_approval", .bool s.requires_approval),
         ("inputs", .dict (s.inputs.map fun kv => (kv.1, DVal.str kv.2)))]

/-- Serialization of a TaskPlan to its dict and step-list representation,
following pydantic model_dump over the fields declared in the source model. -/
def TaskPlan.model_dump (p : TaskPlan) : DVal :=
  .dict [("goal", .str p.goal),
         ("steps", .list (p.steps.map PlanStep.model_dump)),
         ("estimated_agents", .list (p.estimated_agents.map DVal.str))]

/-- Key lookup in a dict value, first match wins (pydantic dicts have unique
keys). -/
def dvalLookup : List (String × DVal) → String → Option DVal
  | [], _ => none
  | (k, v) :: rest, key => if k = key then some v else dvalLookup rest key

/-- Parse a dict of string values back into an association list. -/
def dvalStrPairs : List (String × DVal) → Option (List (String × String))
  | [] => some []
  | (k, .str v) :: rest => (dvalStrPairs rest).map fun r => (k, v) :: r
  | _ :: _ => none

/-- Validation of a PlanStep from its dict representation, following
pydantic model_validate for the fields declared in the source model. -/
def PlanStep.model_validate (v : DVal) : Option PlanStep :=
  match v with
  | .dict kvs =>
    match dvalLookup kvs "description", dvalLookup kvs "agent",
          dvalLookup kvs "requires_approval", dvalLookup kvs "inputs" with
    | some (.str d), some (.str a), some (.bool r), some (.dict ins) =>
      match dvalStrPairs ins with
      | some l => some ⟨d, a, r, l⟩
      | none => none
    | _, _, _, _ => none
  | _ => none

/-- Parse a list of step dicts. -/
def dvalSteps : List DVal → Option (List PlanStep)
  | [] => some []
  | v :: rest =>
    match PlanStep.model_validate v, dvalSteps rest with
    | some s, some r => some (s :: r)
    | _, _ => none

/-- Parse a list of string values. -/
def dvalStrList : List DVal → Option (List String)
  | [] => some []
  | .str s :: rest => (dvalStrList rest).map fun r => s :: r
  | _ :: _ => none

/-- Validation of a TaskPlan from its dict representation, following
pydantic model_validate for the fields declared in the source model. -/
def TaskPlan.model_validate (v : DVal) : Option TaskPlan :=
  match v with
  | .dict kvs =>
    match dvalLookup kvs "goal", dvalLookup kvs "steps",
          dvalLookup kvs "estimated_agents" with
    | some (.str g), some (.list ss), some (.list ags) =>
      match dvalSteps ss, dvalStrList ags with
      | some steps, some agents => some ⟨g, steps, agents⟩
      | _, _ => none
    | _, _, _ => none
  | _ => none

/-- MCPServerStdio connection configuration, as constructed in
src/src/mcp/config.py (command, args, env, startup timeout). -/
structure MCPServerStdio where
  command : String
  args : List String
  env : List (String × String)
  timeoutSecs : Nat
deriving DecidableEq, Repr

/-- MCPToolsets from src/src/mcp/config.py: the container of the three
optional MCP connections; the zero-argument constructor leaves all three
absent. -/
structure MCPToolsets where
  filesystem : Option MCPServerStdio := none
  web_search : Option MCPServerStdio := none
  email : Option MCPServerStdio := none
deriving DecidableEq, Repr

/-- create_mcp_toolsets from src/src/mcp/config.py. The resolved workspace
path stands for str(Path(workspace_path).resolve()) and brave_api_key for
os.environ.get of BRAVE_API_KEY, both environment inputs passed here as
parameters; Python truthiness of the key is an emptiness test. -/
def create_mcp_toolsets (resolved_workspace_path : String) (npx_available : Bool)
    (brave_api_key : Option String) : MCPToolsets :=
  if !npx_available then {} else
  let filesystem := some
    { command := "npx",
      args := ["-y", "@modelcontextprotocol/server-filesystem", resolved_workspace_path],
      env := [], timeoutSecs := 30 }
  let web_search := match brave_api_key with
    | some key =>
      if key = "" then none
      else some
        { command := "npx",
          args := ["-y", "@modelcontextprotocol/server-brave-search"],
          env := [("BRAVE_API_KEY", key)], timeoutSecs := 30 }
    | none => none
  { filesystem := filesystem, web_search := web_search, email := none }

/-- AgentDeps from src/src/agents/base.py, restricted to the fields the
coordination core reads; the session and callback fields are injected
behaviour modeled elsewhere in this file. -/
structure AgentDeps where
  workspace_path : String
  project_id : Nat
  mcp_filesystem : Option MCPServerStdio
  mcp_web_search : Option MCPServerStdio
  mcp_email : Option MCPServerStdio
deriving DecidableEq, Repr

/-- get_active_mcp_servers from src/src/agents/base.py: the filesystem slot
is placed in the list unconditionally (whatever it holds), the optional
slots only when present. -/
def AgentDeps.get_active_mcp_servers (d : AgentDeps) : List (Option MCPServerStdio) :=
  [d.mcp_filesystem]
    ++ (match d.mcp_web_search with | some w => [some w] | none => [])
    ++ (match d.mcp_email with | some e => [some e] | none => [])

/-- Tree of raised exceptions: a plain exception with an isinstance flag for
the MCP error tuple (TimeoutError, FileNotFoundError, ConnectionError,
OSError), an isinstance flag for Exception (false for BaseException-only
classes such as CancelledError or KeyboardInterrupt; in Python the four MCP
classes all subclass Exception, so isMcpType true comes with isException
true), its message and optional cause; or a BaseExceptionGroup with its
member exceptions and optional cause. -/
inductive ExcTree where
  | exc (isMcpType : Bool) (isException : Bool) (msg : String) (cause : Option ExcTree)
  | group (msg : String) (members : List ExcTree) (cause : Option ExcTree)

/-- Python str of the exception, as stored by AgentRun.fail. -/
def ExcTree.msgOf : ExcTree → String
  | .exc _ _ m _ => m
  | .group m _ _ => m

mutual

/-- Whether the raised object is an instance of Exception, deciding what an
except Exception handler catches: a plain exception per its class, and a
group per BaseExceptionGroup semantics, which yield an ExceptionGroup (an
Exception subclass) exactly when every member is an Exception instance. -/
def isExceptionInstance : ExcTree → Bool
  | .exc _ isE _ _ => isE
  | .group _ ms _ => allExceptionInstances ms

/-- Conjunction of isExceptionInstance over group members. -/
def allExceptionInstances : List ExcTree → Bool
  | [] => true
  | t :: rest => isExceptionInstance t && allExceptionInstances rest

end

mutual

/-- The function named _is_mcp_error in src/src/services/agent_coordinator.py:
an MCP-typed exception is recognized directly; a BaseExceptionGroup is
classified by its members alone (the group branch returns before the cause
branch is reached); any other exception defers to its cause chain. -/
def is_mcp_error : ExcTree → Bool
  | .exc true _ _ _ => true
  | .exc false _ _ (some c) => is_mcp_error c
  | .exc false _ _ none => false
  | .group _ ms _ => anyIsMcpError ms

/-- Disjunction of is_mcp_error over group members. -/
def anyIsMcpError : List ExcTree → Bool
  | [] => false
  | t :: rest => is_mcp_error t || anyIsMcpError rest

end

mutual

/-- Classifier following the words of the specification claim: an MCP-typed
exception anywhere among group members or along cause chains, including the
cause chain of a group itself. -/
def spec_provisioning_classified : ExcTree → Bool
  | .exc true _ _ _ => true
  | .exc false _ _ (some c) => spec_provisioning_classified c
  | .exc false _ _ none => false
  | .group _ ms (some c) => anySpecProvisioning ms || spec_provisioning_classified c
  | .group _ ms none => anySpecProvisioning ms

/-- Disjunction of spec_provisioning_classified over group members. -/
def anySpecProvisioning : List ExcTree → Bool
  | [] => false
  | t :: rest => spec_provisioning_classified t || anySpecProvisioning rest

end

/-- The function named _format_user_error in the coordinator: maps known
error patterns to user-friendly messages. -/
def format_user_error (error : String) : String :=
  let lower := strLower error
  if pyIn "npx" lower && (pyIn "not found" lower || pyIn "no such file" lower) then
    "Node.js (npx) is not installed or not on your PATH.\nInstall it from https://nodejs.org to enable MCP tools.\nAgents will still work without tool access."
  else if pyIn "timeout" lower || pyIn "timedout" lower then
    "An MCP tool server timed out while starting. This can happen on the first run while packages are downloaded.\nThe request will be retried without tools. You can try again later once the packages are cached."
  else if pyIn "api_key" lower || pyIn "authentication" lower || pyIn "401" lower then
    "API authentication failed. Please check that your ANTHROPIC_API_KEY is set correctly in your .env file."
  else error

/-- Qt signals the coordinator emits to the UI layer. -/
inductive Sig where
  | message (sender content : String)
  | approvalRequested (action : String) (details : DVal)
  | questionAsked (question : String) (options : List String)
  | planUpdated (plan : TaskPlan)
  | stepStatusChanged (idx : Int) (status : String)
  | statusChanged (status agent : String)
  | taskChanged (desc : String)
  | historyEntry (agent action status : String)

/-- Mutable state of the AgentCoordinator object. An asyncio.Event is
represented by Option Bool: none when the attribute is None, some b when an
event object exists with is_set equal to b. worker_exists and worker_running
represent the current worker attribute being non-None and its thread being
alive; worker_loop represents its loop attribute being set (done at the
start of the orchestrator coroutine). -/
structure CoordState where
  approval_event : Option Bool
  approval_result : Bool
  approval_notes : String
  question_event : Option Bool
  question_answer : String
  worker_exists : Bool
  worker_running : Bool
  worker_loop : Bool
  mcp_toolsets : Option MCPToolsets
  pending_plan : Option TaskPlan
  executing_plan : Option TaskPlan
  current_step_index : Int
deriving Repr

/-- Coordinator state as initialized by the constructor. -/
def initCoordState : CoordState :=
  { approval_event := none, approval_result := false, approval_notes := "",
    question_event := none, question_answer := "", worker_exists := false,
    worker_running := false, worker_loop := false, mcp_toolsets := none,
    pending_plan := none, executing_plan := none, current_step_index := -1 }

/-- Prompt truncation used for the task display in run_async. -/
def truncateTask (prompt : String) : String :=
  if prompt.length > 100 then prompt.take 100 ++ "..." else prompt

/-- run_async: reject with a benign notice when a worker thread is alive;
otherwise create and start a new worker for the prompt. The third component
is the prompt handed to the launched background execution context (none
when no launch happened). -/
def run_async (prompt : String) (s : CoordState) : CoordState × List Sig × Option String :=
  if s.worker_exists && s.worker_running then
    (s, [.message "System" "An agent is already running. Please wait."], none)
  else
    ({ s with worker_exists := true, worker_running := true, worker_loop := false },
     [.statusChanged "running" "Orchestrator", .taskChanged (truncateTask prompt)],
     some prompt)

/-- The method named _send_progress: emit the chat and history signals and,
for a Delegating label during plan execution, advance the step cursor,
completing the previous step and marking the next one running. -/
def send_progress (status details : String) (s : CoordState) : CoordState × List Sig :=
  let base := [Sig.message "Assistant" ("**" ++ status ++ "**: " ++ details),
               Sig.historyEntry "Orchestrator" (status ++ ": " ++ details) "running"]
  if status = "Delegating" then
    match s.executing_plan with
    | some plan =>
      let n : Int := plan.steps.length
      let compSigs := if 0 ≤ s.current_step_index ∧ s.current_step_index < n then
          [Sig.stepStatusChanged s.current_step_index "completed"] else []
      let idx := s.current_step_index + 1
      let runSigs := if idx < n then [Sig.stepStatusChanged idx "running"] else []
      ({ s with current_step_index := idx }, base ++ compSigs ++ runSigs)
    | none => (s, base)
  else (s, base)

/-- The chat rendering of a proposed plan, from _format_plan_message. -/
def format_plan_message (p : TaskPlan) : String :=
  let header := "<b>Plan: " ++ p.goal ++ "</b><br>"
  let stepLines := (enumFrom 1 p.steps).map fun iv =>
    let approval := if iv.2.requires_approval then " ⚠ <i>requires approval</i>" else ""
    toString iv.1 ++ ". [" ++ iv.2.agent ++ "] " ++ iv.2.description ++ approval
  let lines := header :: stepLines
  let lines := if p.estimated_agents.isEmpty then lines
    else lines ++ ["<br><b>Agents involved:</b> " ++ joinSep ", " p.estimated_agents]
  joinSep "<br>" lines

/-- The numbered step list embedded into the plan re-execution prompt. -/
def steps_text (steps : List PlanStep) : String :=
  joinSep "\n" ((enumFrom 1 steps).map fun iv =>
    "  " ++ toString iv.1 ++ ". [" ++ iv.2.agent ++ "] " ++ iv.2.description)

/-- The full re-execution prompt built by _execute_plan. -/
def execution_prompt (p : TaskPlan) (notes : String) : String :=
  let base :=
    "The researcher approved the following plan. Execute it now by " ++
    "delegating each step to the appropriate agent using your tools. " ++
    "Do NOT return another plan — use delegate_to_project_manager, " ++
    "delegate_to_document_maker, and delegate_to_email_drafter to " ++
    "actually perform each step. Report results as a text summary.\n\n" ++
    "Goal: " ++ p.goal ++ "\nSteps:\n" ++ steps_text p.steps
  if notes = "" then base else base ++ "\n\nResearcher notes: " ++ notes

/-- The method named _execute_plan: store the executing plan, reset the step
cursor and run the orchestrator again on the re-execution prompt. -/
def execute_plan (p : TaskPlan) (notes : String) (s : CoordState) :
    CoordState × List Sig × Option String :=
  let s1 := { s with executing_plan := some p, current_step_index := -1 }
  run_async (execution_prompt p notes) s1

/-- handle_approval_response: store the decision, then either consume a
pending proposed plan (approve executes it, decline finalizes), or wake the
gate coroutine by setting its event through the worker loop. -/
def handle_approval_response (approved : Bool) (notes : String) (s : CoordState) :
    CoordState × List Sig × Option String :=
  let s1 := { s with approval_result := approved, approval_notes := notes }
  match s1.pending_plan with
  | some plan =>
    let s2 := { s1 with pending_plan := none }
    if approved then
      let r := execute_plan plan notes s2
      (r.1, Sig.message "System" "Plan approved. Executing..." :: r.2.1, r.2.2)
    else
      (s2, [.message "System" "Plan declined.", .statusChanged "completed" "",
            .taskChanged ""], none)
  | none =>
    if s1.approval_event.isSome && s1.worker_exists && s1.worker_loop then
      ({ s1 with approval_event := some true }, [], none)
    else (s1, [], none)

/-- Terminal output of an orchestrator run: a structured plan or plain text. -/
inductive AgentOutput where
  | plan (p : TaskPlan)
  | text (t : String)
deriving Repr

/-- The slot named _on_agent_finished, handling the worker finished signal
(the worker thread has exited when it fires). The input is none when the
delivered result has no output attribute. -/
def on_agent_finished (result : Option AgentOutput) (s : CoordState) :
    CoordState × List Sig :=
  let s := { s with worker_running := false }
  match result with
  | none =>
    (s, [.statusChanged "completed" "", .taskChanged "",
         .historyEntry "Orchestrator" "Task completed" "completed"])
  | some (.plan p) =>
    ({ s with pending_plan := some p },
     [.planUpdated p,
      .message "Assistant" (format_plan_message p),
      .historyEntry "Orchestrator" "Plan created" "completed",
      .approvalRequested "Execute this plan?"
        (.dict [("goal", .str p.goal), ("steps", .int p.steps.length)])])
  | some (.text t) =>
    let tail := [Sig.statusChanged "completed" "", Sig.taskChanged "",
                 Sig.message "Assistant" t,
                 Sig.historyEntry "Orchestrator" "Task completed" "completed"]
    match s.executing_plan with
    | some plan =>
      let compSigs := (List.range plan.steps.length).map fun i : Nat =>
        Sig.stepStatusChanged (i : Int) "completed"
      ({ s with executing_plan := none, current_step_index := -1 }, compSigs ++ tail)
    | none => (s, tail)

/-- The slot named _on_agent_error, handling the worker error signal (the
worker thread has exited when it fires): mark the in-flight step failed,
discard the executing plan, and report the friendly error. -/
def on_agent_error (error : String) (s : CoordState) : CoordState × List Sig :=
  let s := { s with worker_running := false }
  let r := match s.executing_plan with
    | some plan =>
      let n : Int := plan.steps.length
      let sigs := if 0 ≤ s.current_step_index ∧ s.current_step_index < n then
          [Sig.stepStatusChanged s.current_step_index "failed"] else []
      ({ s with executing_plan := none, current_step_index := -1 }, sigs)
    | none => (s, [])
  let friendly := format_user_error error
  (r.1, r.2 ++ [.statusChanged "error" "", .taskChanged "",
                .message "System" ("Error: " ++ friendly),
                .historyEntry "Orchestrator" ("Error: " ++ friendly) "failed"])

/-- Atomic actions of the gate coroutine body of _request_approval,
interleavable with foreground calls. persistApprovalRecord is the action of
creating and saving an Approval row; it is part of the action vocabulary so
that its absence from the translated body is expressible. -/
inductive MicroAct where
  | createApprovalEvent
  | clearApprovalResult
  | persistApprovalRecord
  | emitSig (sig : Sig)
  | awaitApprovalEvent
  | returnApprovalResult

/-- The body of _request_approval as its ordered list of atomic actions:
create the event, clear the stored result, emit the approval-requested and
waiting signals, await the event, emit the running signal, and return the
stored result. -/
def request_approval_acts (action : String) (details : DVal) : List MicroAct :=
  [ .createApprovalEvent,
    .clearApprovalResult,
    .emitSig (.approvalRequested action details),
    .emitSig (.statusChanged "waiting" "Approval"),
    .awaitApprovalEvent,
    .emitSig (.statusChanged "running" "Orchestrator"),
    .returnApprovalResult ]

/-- Count of Approval rows persisted by a list of gate actions. -/
def approvalRecordsCreated : List MicroAct → Nat
  | [] => 0
  | .persistApprovalRecord :: rest => approvalRecordsCreated rest + 1
  | _ :: rest => approvalRecordsCreated rest

/-- Result of running the gate coroutine for some number of scheduler slots:
the actions still to run (nonempty when blocked on the unset event or out of
slots), the coordinator state, the emitted signals, the value returned by
the suspended call once it completes, and how many times the await was
passed (each passage is one resumption of the suspended execution). -/
structure GateRes where
  remaining : List MicroAct
  state : CoordState
  sigs : List Sig
  ret : Option Bool
  wakes : Nat

/-- Interpreter for the gate coroutine: run up to fuel actions, stopping
early when awaiting an event that is not set. -/
def run_acts : Nat → List MicroAct → CoordState → List Sig → Option Bool → Nat → GateRes
  | 0, acts, st, sigs, ret, wakes => ⟨acts, st, sigs, ret, wakes⟩
  | _ + 1, [], st, sigs, ret, wakes => ⟨[], st, sigs, ret, wakes⟩
  | fuel + 1, act :: rest, st, sigs, ret, wakes =>
    match act with
    | .createApprovalEvent =>
      run_acts fuel rest { st with approval_event := some false } sigs ret wakes
    | .clearApprovalResult =>
      run_acts fuel rest { st with approval_result := false } sigs ret wakes
    | .persistApprovalRecord => run_acts fuel rest st sigs ret wakes
    | .emitSig g => run_acts fuel rest st (sigs ++ [g]) ret wakes
    | .awaitApprovalEvent =>
      if st.approval_event = some true then
        run_acts fuel rest st sigs ret (wakes + 1)
      else ⟨act :: rest, st, sigs, ret, wakes⟩
    | .returnApprovalResult =>
      run_acts fuel rest st sigs (some st.approval_result) wakes

/-- One full interleaving of a gate approval request with one foreground
response: the background coroutine runs k scheduler slots (fewer if it
blocks first), the foreground then calls handle_approval_response, and the
background runs to completion or blocks again. -/
def gate_run (s0 : CoordState) (action : String) (details : DVal) (k : Nat)
    (approved : Bool) (notes : String) : GateRes :=
  let r1 := run_acts k (request_approval_acts action details) s0 [] none 0
  let fg := handle_approval_response approved notes r1.state
  run_acts r1.remaining.length r1.remaining fg.1 (r1.sigs ++ fg.2.1) r1.ret r1.wakes

/-- Approval record from src/src/models/approval.py. The approved field is
the tri-state decision (none pending, some true approved, some false
denied). -/
structure ApprovalRecord where
  agent_run_id : Nat
  action_description : String
  details : DVal
  approved : Option Bool
  researcher_notes : Option String
  requested_at : Nat
  decided_at : Option Nat

/-- Approval.approve: set the decision true and stamp decided_at; notes are
stored only when nonempty (Python truthiness of the argument). -/
def ApprovalRecord.approve (r : ApprovalRecord) (notes : Option String) (t : Nat) :
    ApprovalRecord :=
  let r := { r with approved := some true, decided_at := some t }
  match notes with
  | some s => if s = "" then r else { r with researcher_notes := some s }
  | none => r

/-- Approval.deny: set the decision false and stamp decided_at; notes are
stored only when nonempty. -/
def ApprovalRecord.deny (r : ApprovalRecord) (notes : Option String) (t : Nat) :
    ApprovalRecord :=
  let r := { r with approved := some false, decided_at := some t }
  match notes with
  | some s => if s = "" then r else { r with researcher_notes := some s }
  | none => r

/-- AgentRun record from src/src/models/agent_run.py. Timestamps are clock
readings passed in by the caller. -/
structure RunRecord where
  project_id : Nat
  agent_type : String
  prompt : String
  output : Option DVal
  status : String
  error_message : Option String
  started_at : Option Nat
  completed_at : Option Nat
  token_usage : Option (Nat × Nat × Nat)

/-- AgentRun.start. -/
def RunRecord.start (r : RunRecord) (t : Nat) : RunRecord :=
  { r with status := "running", started_at := some t }

/-- AgentRun.complete: a dict output is stored as is, any other value is
wrapped as the result field of a dict. -/
def RunRecord.complete (r : RunRecord) (output : DVal) (t : Nat) : RunRecord :=
  { r with status := "completed", completed_at := some t,
           output := some (match output with
             | .dict kvs => .dict kvs
             | v => .dict [("result", v)]) }

/-- AgentRun.fail. -/
def RunRecord.fail (r : RunRecord) (error : String) (t : Nat) : RunRecord :=
  { r with status := "failed", completed_at := some t, error_message := some error }

/-- What one invocation of the opaque orchestrator agent returns: a result
carrying an output and optional usage counters, or a raised exception. -/
inductive AgentOutcome where
  | ok (output : AgentOutput) (usage : Option (Nat × Nat × Nat))
  | err (e : ExcTree)

/-- Oracle for the at most two agent invocations one ledger run may make. -/
structure Oracle where
  firstAttempt : AgentOutcome
  retryAttempt : AgentOutcome

/-- One recorded invocation of the orchestrator agent: the prompt and the
toolsets argument (none when the call passes no toolsets). -/
structure Invocation where
  prompt : String
  toolsets : Option (List (Option MCPServerStdio))

/-- Environment and configuration inputs of one orchestrator run. -/
structure RunConfig where
  project_id : Nat
  workspace_path : String
  resolved_workspace_path : String
  npx_available : Bool
  brave_api_key : Option String

/-- The dict stored by AgentRun.complete for a given agent output: the model
dump of a plan, or the str of a text output. -/
def outputDump : AgentOutput → DVal
  | .plan p => p.model_dump
  | .text t => .str t

/-- Everything observable about one execution of the coroutine named
_run_orchestrator: the resulting coordinator state, the committed states of
the ledger record in order, the agent invocations made, the emitted
signals, the exception propagating out of the coroutine (delivered as the
worker error signal), and how many ledger rows were created. -/
structure OrchRes where
  state : CoordState
  recordStates : List RunRecord
  invocations : List Invocation
  sigs : List Sig
  raised : Option ExcTree
  runsCreated : Nat

/-- The coroutine named _run_orchestrator: register the loop, lazily
provision toolsets, create the ledger row in status running, invoke the
agent with the active MCP servers, and on an MCP-classified startup failure
notify, reset the toolsets to empty and retry the same prompt once without
tools; complete the same ledger row on success. The outer handler of the
source catches Exception only, so a propagating error is committed as
failed exactly when the raised object is an Exception instance; a
BaseException-only raise escapes the handler and leaves the row committed
in status running. t0 and t1 are the clock readings at row creation and
termination. The npx_available and brave_api_key environment reads are
boundary inputs of the excluded configuration collaborator, passed in
through cfg. -/
def run_orchestrator (cfg : RunConfig) (prompt : String) (oracle : Oracle)
    (t0 t1 : Nat) (s : CoordState) : OrchRes :=
  let s := { s with worker_loop := true }
  let ts := match s.mcp_toolsets with
    | some ts => ts
    | none => create_mcp_toolsets cfg.resolved_workspace_path cfg.npx_available
        cfg.brave_api_key
  let s := { s with mcp_toolsets := some ts }
  let r0 : RunRecord :=
    { project_id := cfg.project_id, agent_type := "orchestrator", prompt := prompt,
      output := none, status := "running", error_message := none,
      started_at := some t0, completed_at := none, token_usage := none }
  let deps : AgentDeps :=
    { workspace_path := cfg.workspace_path, project_id := cfg.project_id,
      mcp_filesystem := ts.filesystem, mcp_web_search := ts.web_search,
      mcp_email := ts.email }
  let servers := deps.get_active_mcp_servers
  let finish := fun (s : CoordState) (invs : List Invocation) (sigs : List Sig)
      (output : AgentOutput) (usage : Option (Nat × Nat × Nat)) =>
    let r1 := r0.complete (outputDump output) t1
    let r1 := match usage with
      | some u => { r1 with token_usage := some u }
      | none => r1
    OrchRes.mk s [r0, r1] invs sigs none 1
  match oracle.firstAttempt with
  | .ok output usage => finish s [⟨prompt, some servers⟩] [] output usage
  | .err e =>
    if !servers.isEmpty && is_mcp_error e then
      let pr := send_progress "MCP Unavailable"
        "Tool servers failed to start. Retrying without tools..." s
      let s := { pr.1 with mcp_toolsets := some {} }
      match oracle.retryAttempt with
      | .ok output usage =>
        finish s [⟨prompt, some servers⟩, ⟨prompt, none⟩] pr.2 output usage
      | .err e2 =>
        if isExceptionInstance e2 then
          OrchRes.mk s [r0, r0.fail e2.msgOf t1]
            [⟨prompt, some servers⟩, ⟨prompt, none⟩] pr.2 (some e2) 1
        else
          OrchRes.mk s [r0] [⟨prompt, some servers⟩, ⟨prompt, none⟩] pr.2 (some e2) 1
    else
      if isExceptionInstance e then
        OrchRes.mk s [r0, r0.fail e.msgOf t1] [⟨prompt, some servers⟩] [] (some e) 1
      else
        OrchRes.mk s [r0] [⟨prompt, some servers⟩] [] (some e) 1

/-- Last-wins update of a tracked step status by one signal. -/
def stepUpd (j : Int) (acc : Option String) (g : Sig) : Option String :=
  match g with
  | .stepStatusChanged i st => if i = j then some st else acc
  | _ => acc

/-- The status a signal trace leaves step j in: the last stepStatusChanged
emitted for j, none if the step was never touched. -/
def stepStatusOf (sigs : List Sig) (j : Int) : Option String :=
  sigs.foldl (stepUpd j) none

lemma foldl_stepUpd_init (j : Int) :
    ∀ (b : List Sig) (init : Option String),
      b.foldl (stepUpd j) init =
        match b.foldl (stepUpd j) none with
        | some v => some v
        | none => init := by
  intro b
  induction b with
  | nil => intro init; rfl
  | cons g b ih =>
    intro init
    have hg : ∀ i0 : Option String, stepUpd j i0 g = match stepUpd j none g with
        | some v => some v
        | none => i0 := by
      intro i0
      cases g <;> simp [stepUpd]
      case stepStatusChanged i st => split <;> simp
    simp only [List.foldl_cons]
    rw [ih (stepUpd j init g), ih (stepUpd j none g), hg init]
    cases hfb : List.foldl (stepUpd j) none b <;>
      cases hn : stepUpd j none g <;> simp

lemma stepStatusOf_append (a b : List Sig) (j : Int) :
    stepStatusOf (a ++ b) j =
      match stepStatusOf b j with
      | some v => some v
      | none => stepStatusOf a j := by
  unfold stepStatusOf
  rw [List.foldl_append]
  exact foldl_stepUpd_init j b (a.foldl (stepUpd j) none)

lemma stepStatusOf_range (n : Nat) (j : Int) :
    stepStatusOf ((List.range n).map fun i : Nat =>
      Sig.stepStatusChanged (i : Int) "completed") j
      = if 0 ≤ j ∧ j < (n : Int) then some "completed" else none := by
  induction n with
  | zero =>
    simp only [List.range_zero, List.map_nil]
    rw [if_neg (show ¬ (0 ≤ j ∧ j < ((0 : Nat) : Int)) by omega)]
    rfl
  | succ n ih =>
    have hone : stepStatusOf [Sig.stepStatusChanged (n : Int) "completed"] j
        = if (n : Int) = j then some "completed" else none := by
      simp [stepStatusOf, stepUpd]
    rw [List.range_succ, List.map_append, stepStatusOf_append, List.map_singleton,
      hone, ih]
    by_cases hj : (n : Int) = j
    · rw [if_pos hj, if_pos (show 0 ≤ j ∧ j < ((n + 1 : Nat) : Int) by omega)]
    · rw [if_neg hj]
      rcases Classical.em (0 ≤ j ∧ j < (n : Int)) with hb | hb
      · rw [if_pos hb, if_pos (show 0 ≤ j ∧ j < ((n + 1 : Nat) : Int) by omega)]
      · rw [if_neg hb, if_neg (show ¬ (0 ≤ j ∧ j < ((n + 1 : Nat) : Int)) by omega)]

/-- Iterated delegation progress events: k successive calls of
send_progress with the Delegating label, with f giving the detail text of
each call. -/
def deleg_iter (f : Nat → String) : Nat → CoordState → CoordState × List Sig
  | 0, s => (s, [])
  | k + 1, s =>
    let r := deleg_iter f k s
    let r2 := send_progress "Delegating" (f k) r.1
    (r2.1, r.2 ++ r2.2)

lemma strHasSub_frame (pre s post : String) : StrHasSub (pre ++ s ++ post) s :=
  ⟨pre, post, rfl⟩

lemma strHasSub_self (s : String) : StrHasSub s s :=
  ⟨"", "", by simp⟩

lemma strHasSub_appL (a b sub : String) (h : StrHasSub b sub) :
    StrHasSub (a ++ b) sub := by
  obtain ⟨p, q, rfl⟩ := h
  exact ⟨a ++ p, q, by simp [String.append_assoc]⟩

lemma strHasSub_appR (a b sub : String) (h : StrHasSub a sub) :
    StrHasSub (a ++ b) sub := by
  obtain ⟨p, q, rfl⟩ := h
  exact ⟨p, q ++ b, by simp [String.append_assoc]⟩

lemma strHasSub_trans (a b c : String) (hab : StrHasSub a b) (hbc : StrHasSub b c) :
    StrHasSub a c := by
  obtain ⟨p, q, rfl⟩ := hab
  obtain ⟨p2, q2, rfl⟩ := hbc
  exact ⟨p ++ p2, q2 ++ q, by simp [String.append_assoc]⟩

lemma joinSep_hasSub (sep : String) :
    ∀ (l : List String) (x : String), x ∈ l → StrHasSub (joinSep sep l) x := by
  intro l
  induction l with
  | nil => intro x hx; cases hx
  | cons a l ih =>
    intro x hx
    match l, hx with
    | [], hx =>
      have : x = a := by simpa using hx
      subst this
      exact strHasSub_self x
    | b :: rest, hx =>
      rcases List.mem_cons.mp hx with h | h
      · subst h
        show StrHasSub (x ++ sep ++ joinSep sep (b :: rest)) x
        exact strHasSub_appR _ _ _ (strHasSub_appR _ _ _ (strHasSub_self x))
      · show StrHasSub (a ++ sep ++ joinSep sep (b :: rest)) x
        exact strHasSub_appL _ _ _ (ih x h)

lemma enumFrom_mem {α : Type} (x : α) :
    ∀ (l : List α) (n : Nat), x ∈ l → ∃ i, (i, x) ∈ enumFrom n l := by
  intro l
  induction l with
  | nil => intro n hx; cases hx
  | cons a l ih =>
    intro n hx
    rcases List.mem_cons.mp hx with h | h
    · exact ⟨n, by rw [h, enumFrom]; exact List.mem_cons_self _ _⟩
    · obtain ⟨i, hi⟩ := ih (n + 1) h
      exact ⟨i, by rw [enumFrom]; exact List.mem_cons_of_mem _ hi⟩

/-- The re-execution prompt contains the full bracketed line fragment of
every plan step. -/
lemma steps_text_hasSub (steps : List PlanStep) (st : PlanStep) (h : st ∈ steps) :
    StrHasSub (steps_text steps) ("[" ++ st.agent ++ "] " ++ st.description) := by
  obtain ⟨i, hi⟩ := enumFrom_mem st steps 1 h
  have hline : ("  " ++ toString i ++ ". [" ++ st.agent ++ "] " ++ st.description)
      ∈ (enumFrom 1 steps).map fun iv =>
        "  " ++ toString iv.1 ++ ". [" ++ iv.2.agent ++ "] " ++ iv.2.description := by
    exact List.mem_map_of_mem _ hi
  have hj := joinSep_hasSub "\n" _ _ hline
  refine strHasSub_trans _ _ _ hj ?_
  refine ⟨"  " ++ toString i ++ ". ", "", ?_⟩
  simp [String.append_assoc]
  rw [← String.append_assoc ". " "[" (st.agent ++ ("] " ++ st.description))]
  rfl

lemma execution_prompt_goal (p : TaskPlan) (notes : String) :
    StrHasSub (execution_prompt p notes) p.goal := by
  unfold execution_prompt
  have hbase : StrHasSub
      ("The researcher approved the following plan. Execute it now by " ++
        "delegating each step to the appropriate agent using your tools. " ++
        "Do NOT return another plan — use delegate_to_project_manager, " ++
        "delegate_to_document_maker, and delegate_to_email_drafter to " ++
        "actually perform each step. Report results as a text summary.\n\n" ++
        "Goal: " ++ p.goal ++ "\nSteps:\n" ++ steps_text p.steps) p.goal := by
    refine strHasSub_appR _ _ _ ?_
    refine strHasSub_appR _ _ _ ?_
    exact ⟨"The researcher approved the following plan. Execute it now by " ++
      "delegating each step to the appropriate agent using your tools. " ++
      "Do NOT return another plan — use delegate_to_project_manager, " ++
      "delegate_to_document_maker, and delegate_to_email_drafter to " ++
      "actually perform each step. Report results as a text summary.\n\n" ++
      "Goal: ", "", by simp [String.append_assoc]⟩
  split
  · exact hbase
  · exact strHasSub_appR _ _ _ (strHasSub_appR _ _ _ hbase)

lemma execution_prompt_step (p : TaskPlan) (notes : String) (st : PlanStep)
    (h : st ∈ p.steps) :
    StrHasSub (execution_prompt p notes) st.agent ∧
    StrHasSub (execution_prompt p notes) st.description := by
  have hfrag := steps_text_hasSub p.steps st h
  have hin : StrHasSub (execution_prompt p notes) (steps_text p.steps) := by
    unfold execution_prompt
    split
    · exact strHasSub_appL _ _ _ (strHasSub_self _)
    · exact strHasSub_appR _ _ _
        (strHasSub_appR _ _ _ (strHasSub_appL _ _ _ (strHasSub_self _)))
  have hfull := strHasSub_trans _ _ _ hin hfrag
  constructor
  · refine strHasSub_trans _ _ _ hfull ?_
    exact ⟨"[", "] " ++ st.description, by simp [String.append_assoc]⟩
  · refine strHasSub_trans _ _ _ hfull ?_
    exact ⟨"[" ++ st.agent ++ "] ", "", by simp [String.append_assoc]⟩

/-- The active server list always starts with the filesystem slot, so it is
never the empty list. -/
lemma get_active_mcp_servers_ne_nil (d : AgentDeps) :
    d.get_active_mcp_servers ≠ [] := by
  unfold AgentDeps.get_active_mcp_servers
  simp

lemma send_progress_delegating (d : String) (plan : TaskPlan) (s1 : CoordState)
    (hp : s1.executing_plan = some plan) :
    send_progress "Delegating" d s1 =
      ({ s1 with current_step_index := s1.current_step_index + 1 },
       [Sig.message "Assistant" ("**Delegating**: " ++ d),
        Sig.historyEntry "Orchestrator" ("Delegating: " ++ d) "running"]
       ++ (if 0 ≤ s1.current_step_index ∧ s1.current_step_index < (plan.steps.length : Int)
           then [Sig.stepStatusChanged s1.current_step_index "completed"] else [])
       ++ (if s1.current_step_index + 1 < (plan.steps.length : Int)
           then [Sig.stepStatusChanged (s1.current_step_index + 1) "running"] else [])) := by
  unfold send_progress
  simp [hp]

lemma stepStatusOf_progress (d : String) (i n j : Int) :
    stepStatusOf ([Sig.message "Assistant" ("**Delegating**: " ++ d),
        Sig.historyEntry "Orchestrator" ("Delegating: " ++ d) "running"]
      ++ (if 0 ≤ i ∧ i < n then [Sig.stepStatusChanged i "completed"] else [])
      ++ (if i + 1 < n then [Sig.stepStatusChanged (i + 1) "running"] else [])) j =
      (if i + 1 < n ∧ j = i + 1 then some "running"
       else if (0 ≤ i ∧ i < n) ∧ j = i then some "completed"
       else none) := by
  rcases Classical.em (0 ≤ i ∧ i < n) with h1 | h1 <;>
    rcases Classical.em (i + 1 < n) with h2 | h2 <;>
      simp [h1, h2, stepStatusOf, stepUpd] <;>
        split_ifs <;> first | rfl | omega

lemma deleg_iter_spec (f : Nat → String) (plan : TaskPlan) (s : CoordState)
    (hp : s.executing_plan = some plan) (hi : s.current_step_index = -1) :
    ∀ k : Nat, k ≤ plan.steps.length →
      (deleg_iter f k s).1.executing_plan = some plan ∧
      (deleg_iter f k s).1.current_step_index = (k : Int) - 1 ∧
      ∀ j : Int, stepStatusOf (deleg_iter f k s).2 j =
        (if 0 ≤ j ∧ j < (k : Int) - 1 then some "completed"
         else if 1 ≤ k ∧ j = (k : Int) - 1 then some "running"
         else none) := by
  intro k
  induction k with
  | zero =>
    intro _
    refine ⟨by simpa [deleg_iter] using hp, by simpa [deleg_iter] using hi, ?_⟩
    intro j
    rw [if_neg (by omega), if_neg (by omega)]
    rfl
  | succ k ih =>
    intro hk
    obtain ⟨ih1, ih2, ih3⟩ := ih (by omega)
    have hd : deleg_iter f (k + 1) s =
        ((send_progress "Delegating" (f k) (deleg_iter f k s).1).1,
         (deleg_iter f k s).2 ++
           (send_progress "Delegating" (f k) (deleg_iter f k s).1).2) := rfl
    have hsp := send_progress_delegating (f k) plan (deleg_iter f k s).1 ih1
    refine ⟨?_, ?_, ?_⟩
    · rw [hd]
      rw [hsp]
      simpa using ih1
    · rw [hd]
      rw [hsp]
      simp only []
      rw [ih2]
      omega
    · intro j
      rw [hd]
      simp only []
      rw [stepStatusOf_append]
      rw [show (send_progress "Delegating" (f k) (deleg_iter f k s).1).2
          = ([Sig.message "Assistant" ("**Delegating**: " ++ f k),
              Sig.historyEntry "Orchestrator" ("Delegating: " ++ f k) "running"]
             ++ (if 0 ≤ (deleg_iter f k s).1.current_step_index ∧
                    (deleg_iter f k s).1.current_step_index < (plan.steps.length : Int)
                 then [Sig.stepStatusChanged (deleg_iter f k s).1.current_step_index
                        "completed"] else [])
             ++ (if (deleg_iter f k s).1.current_step_index + 1 < (plan.steps.length : Int)
                 then [Sig.stepStatusChanged
                        ((deleg_iter f k s).1.current_step_index + 1) "running"]
                 else [])) from by rw [hsp]]
      rw [stepStatusOf_progress, ih3 j, ih2]
      have hkn : (k : Int) - 1 + 1 < (plan.steps.length : Int) := by omega
      split_ifs <;> first | rfl | omega

lemma dvalStrPairs_dump (l : List (String × String)) :
    dvalStrPairs (l.map fun kv => (kv.1, DVal.str kv.2)) = some l := by
  induction l with
  | nil => rfl
  | cons kv rest ih =>
    cases kv
    simp [dvalStrPairs, ih]

lemma planStep_validate_dump (s : PlanStep) :
    PlanStep.model_validate s.model_dump = some s := by
  cases s with
  | mk d a r ins =>
    simp [PlanStep.model_dump, PlanStep.model_validate, dvalLookup, dvalStrPairs_dump]

lemma dvalSteps_dump (l : List PlanStep) :
    dvalSteps (l.map PlanStep.model_dump) = some l := by
  induction l with
  | nil => rfl
  | cons s rest ih => simp [dvalSteps, planStep_validate_dump, ih]

lemma dvalStrList_dump (l : List String) :
    dvalStrList (l.map DVal.str) = some l := by
  induction l with
  | nil => rfl
  | cons s rest ih => simp [dvalStrList, ih]

/-- C9: for every Plan value, serializing it to its dictionary and step-list
representation and parsing that representation back yields a Plan equal to
the original, hence equal in goal text, step order, and each step's agent
name, description, and requires-approval flag. -/
theorem claim_C9 (p : TaskPlan) : TaskPlan.model_validate p.model_dump = some p := by
  cases p with
  | mk g steps ags =>
    simp [TaskPlan.model_dump, TaskPlan.model_validate, dvalLookup, dvalSteps_dump,
      dvalStrList_dump]

/-- Python truthiness of an optional credential string: configured means
present and nonempty. -/
def credConfigured : Option String → Bool
  | some s => !(s == "")
  | none => false

/-- C8: tool provisioning is a total function of the workspace path and the
environment capabilities, so it never raises when a prerequisite is unmet;
when npx is unavailable every connection is absent, when it is available the
filesystem connection is present, the web-search connection is present if
and only if the web-search credential is configured, and the email
connection is always absent. -/
theorem claim_C8 (ws : String) (npx : Bool) (key : Option String) :
    ((create_mcp_toolsets ws npx key).filesystem.isSome ↔ npx = true) ∧
    ((create_mcp_toolsets ws npx key).web_search.isSome ↔
      (npx = true ∧ credConfigured key = true)) ∧
    (create_mcp_toolsets ws npx key).email = none := by
  cases npx with
  | false => simp [create_mcp_toolsets]
  | true =>
    cases key with
    | none => simp [create_mcp_toolsets, credConfigured]
    | some k =>
      by_cases hk : k = ""
      · simp [create_mcp_toolsets, credConfigured, hk]
      · simp [create_mcp_toolsets, credConfigured, hk]

/-- C10: get_active_mcp_servers always returns a list whose first element is
the filesystem slot, whether or not that connection is present, so the list
is never empty and its length is one plus the number of present optional
connections. -/
theorem claim_C10 (d : AgentDeps) :
    d.get_active_mcp_servers.head? = some d.mcp_filesystem ∧
    d.get_active_mcp_servers ≠ [] ∧
    d.get_active_mcp_servers.length =
      1 + (if d.mcp_web_search.isSome then 1 else 0)
        + (if d.mcp_email.isSome then 1 else 0) := by
  refine ⟨?_, get_active_mcp_servers_ne_nil d, ?_⟩
  · unfold AgentDeps.get_active_mcp_servers
    rfl
  · unfold AgentDeps.get_active_mcp_servers
    cases d.mcp_web_search <;> cases d.mcp_email <;> simp

/-- C3: a prompt submitted while a worker thread is alive is rejected with a
benign notice; the coordinator state is unchanged, no background execution
context is launched (the launched component is none), and consequently no
ledger row is created, since rows are created only inside a launched
execution. -/
theorem claim_C3 (s : CoordState) (prompt : String)
    (hw : s.worker_exists = true) (hr : s.worker_running = true) :
    run_async prompt s =
      (s, [Sig.message "System" "An agent is already running. Please wait."], none) := by
  unfold run_async
  rw [if_pos (by rw [hw, hr]; rfl)]

/-- A coordinator state with an alive worker thread. -/
def busyState : CoordState :=
  { initCoordState with worker_exists := true, worker_running := true }

/-- Witness for C3 at a concrete busy state and prompt. -/
theorem claim_C3_witness :
    run_async "Plan a study" busyState =
      (busyState, [Sig.message "System" "An agent is already running. Please wait."],
       none) :=
  claim_C3 busyState "Plan a study" rfl rfl

/-- C7: the body of the approval gate persists no Approval row at all, even
though the claim (and the comment in the source) call for an Approval record
to be created with a pending decision whenever a gate request is raised:
the count of persisted Approval rows among the gate actions is zero. -/
theorem claim_C7 (action : String) (details : DVal) :
    approvalRecordsCreated (request_approval_acts action details) = 0 := rfl

lemma on_agent_finished_text (t : String) (plan : TaskPlan) (s1 : CoordState)
    (h : s1.executing_plan = some plan) :
    on_agent_finished (some (.text t)) s1 =
      ({ s1 with worker_running := false, executing_plan := none,
                 current_step_index := -1 },
       ((List.range plan.steps.length).map fun i : Nat =>
          Sig.stepStatusChanged (i : Int) "completed")
       ++ [Sig.statusChanged "completed" "", Sig.taskChanged "",
           Sig.message "Assistant" t,
           Sig.historyEntry "Orchestrator" "Task completed" "completed"]) := by
  unfold on_agent_finished
  simp [h]

lemma on_agent_error_executing (err : String) (plan : TaskPlan) (s1 : CoordState)
    (h : s1.executing_plan = some plan) :
    on_agent_error err s1 =
      ({ s1 with worker_running := false, executing_plan := none,
                 current_step_index := -1 },
       (if 0 ≤ s1.current_step_index ∧
           s1.current_step_index < (plan.steps.length : Int) then
          [Sig.stepStatusChanged s1.current_step_index "failed"] else [])
       ++ [Sig.statusChanged "error" "", Sig.taskChanged "",
           Sig.message "System" ("Error: " ++ format_user_error err),
           Sig.historyEntry "Orchestrator" ("Error: " ++ format_user_error err)
             "failed"]) := by
  unfold on_agent_error
  simp [h]

lemma stepStatusOf_plainTail (a b c d : String) (j : Int) :
    stepStatusOf [Sig.statusChanged a "", Sig.taskChanged b, Sig.message c d,
      Sig.historyEntry "Orchestrator" d "failed"] j = none := by
  simp [stepStatusOf, stepUpd]

/-- C4: during an executing plan with N steps and an initial step cursor,
N delegation progress events followed by a plain-text completion leave every
one of the N steps with last reported status completed, and the executing
plan is discarded; if instead the run errors after k delegation events with
1 less or equal k less than N, exactly the current step with index k - 1 is
last reported failed, the steps before it stay completed, the steps from
index k on are never reported (still pending), and the executing plan is
discarded. -/
theorem claim_C4 (f : Nat → String) (plan : TaskPlan) (s : CoordState)
    (t err : String)
    (hp : s.executing_plan = some plan) (hi : s.current_step_index = -1) :
    ((∀ j : Int, 0 ≤ j → j < (plan.steps.length : Int) →
        stepStatusOf ((deleg_iter f plan.steps.length s).2
          ++ (on_agent_finished (some (.text t))
                (deleg_iter f plan.steps.length s).1).2) j = some "completed") ∧
      (on_agent_finished (some (.text t))
        (deleg_iter f plan.steps.length s).1).1.executing_plan = none) ∧
    (∀ k : Nat, 1 ≤ k → k < plan.steps.length →
      (stepStatusOf ((deleg_iter f k s).2
          ++ (on_agent_error err (deleg_iter f k s).1).2) ((k : Int) - 1)
        = some "failed") ∧
      (∀ j : Int, 0 ≤ j → j < (k : Int) - 1 →
        stepStatusOf ((deleg_iter f k s).2
          ++ (on_agent_error err (deleg_iter f k s).1).2) j = some "completed") ∧
      (∀ j : Int, (k : Int) ≤ j → j < (plan.steps.length : Int) →
        stepStatusOf ((deleg_iter f k s).2
          ++ (on_agent_error err (deleg_iter f k s).1).2) j = none) ∧
      (on_agent_error err (deleg_iter f k s).1).1.executing_plan = none) := by
  constructor
  · obtain ⟨e1, _, _⟩ :=
      deleg_iter_spec f plan s hp hi plan.steps.length le_rfl
    have hfin := on_agent_finished_text t plan (deleg_iter f plan.steps.length s).1 e1
    constructor
    · intro j hj0 hjn
      rw [hfin]
      rw [stepStatusOf_append, stepStatusOf_append]
      have htail : stepStatusOf [Sig.statusChanged "completed" "", Sig.taskChanged "",
          Sig.message "Assistant" t,
          Sig.historyEntry "Orchestrator" "Task completed" "completed"] j = none := by
        simp [stepStatusOf, stepUpd]
      rw [htail, stepStatusOf_range, if_pos ⟨hj0, hjn⟩]
    · rw [hfin]
  · intro k hk1 hkn
    obtain ⟨e1, e2, e3⟩ := deleg_iter_spec f plan s hp hi k (le_of_lt hkn)
    have herr := on_agent_error_executing err plan (deleg_iter f k s).1 e1
    have hcond : 0 ≤ (deleg_iter f k s).1.current_step_index ∧
        (deleg_iter f k s).1.current_step_index < (plan.steps.length : Int) := by
      rw [e2]; omega
    have htail : ∀ j : Int, stepStatusOf [Sig.statusChanged "error" "",
        Sig.taskChanged "", Sig.message "System" ("Error: " ++ format_user_error err),
        Sig.historyEntry "Orchestrator" ("Error: " ++ format_user_error err) "failed"] j
        = none := by
      intro j; simp [stepStatusOf, stepUpd]
    have hfailSig : ∀ j : Int,
        stepStatusOf ((on_agent_error err (deleg_iter f k s).1).2) j =
          (if j = (k : Int) - 1 then some "failed" else none) := by
      intro j
      rw [herr]
      simp only []
      rw [if_pos hcond, stepStatusOf_append, htail, e2]
      by_cases hj : j = (k : Int) - 1
      · rw [if_pos hj]
        simp [stepStatusOf, stepUpd, hj]
      · rw [if_neg hj]
        simp [stepStatusOf, stepUpd]
        intro hcontra
        exact absurd hcontra.symm hj
    refine ⟨?_, ?_, ?_, ?_⟩
    · rw [stepStatusOf_append, hfailSig, if_pos rfl]
    · intro j hj0 hjk
      rw [stepStatusOf_append, hfailSig,
        if_neg (show ¬ j = (k : Int) - 1 by omega), e3,
        if_pos (show 0 ≤ j ∧ j < (k : Int) - 1 from ⟨hj0, hjk⟩)]
    · intro j hjk hjn
      rw [stepStatusOf_append, hfailSig,
        if_neg (show ¬ j = (k : Int) - 1 by omega), e3,
        if_neg (show ¬ (0 ≤ j ∧ j < (k : Int) - 1) by omega),
        if_neg (show ¬ (1 ≤ k ∧ j = (k : Int) - 1) by omega)]
    · rw [herr]

/-- C5 amended: for every proposed structured Plan, provided no worker
thread is alive when the decision is submitted, approving it launches
exactly one re-execution run whose prompt contains the plan goal and, for
every step, that step's owning agent name and description text; declining it
launches no run. -/
theorem claim_C5_amended (s : CoordState) (plan : TaskPlan) (notes : String)
    (hp : s.pending_plan = some plan) (hr : s.worker_running = false) :
    (handle_approval_response true notes s).2.2
        = some (execution_prompt plan notes) ∧
    StrHasSub (execution_prompt plan notes) plan.goal ∧
    (∀ st ∈ plan.steps, StrHasSub (execution_prompt plan notes) st.agent ∧
      StrHasSub (execution_prompt plan notes) st.description) ∧
    (handle_approval_response false notes s).2.2 = none := by
  refine ⟨?_, execution_prompt_goal plan notes,
    fun st h => execution_prompt_step plan notes st h, ?_⟩
  · unfold handle_approval_response
    simp [hp, execute_plan, run_async, hr]
  · unfold handle_approval_response
    simp [hp]

/-- A one-step example plan used in concrete scenarios. -/
def examplePlan : TaskPlan :=
  { goal := "Draft an informed consent form",
    steps := [{ description := "Create the ICF draft", agent := "document_maker",
                requires_approval := true, inputs := [] }],
    estimated_agents := ["document_maker"] }

/-- An idle coordinator state holding a proposed plan awaiting its decision,
as left by a finished planning run. -/
def idlePendingState : CoordState :=
  (on_agent_finished (some (.plan examplePlan))
    (run_async "Plan the ICF workflow" initCoordState).1).1

/-- Witness for C5 at a concrete pending plan in an idle state. -/
theorem claim_C5_witness :
    (handle_approval_response true "ok" idlePendingState).2.2
        = some (execution_prompt examplePlan "ok") ∧
    (handle_approval_response false "ok" idlePendingState).2.2 = none :=
  ⟨(claim_C5_amended idlePendingState examplePlan "ok" rfl rfl).1,
   (claim_C5_amended idlePendingState examplePlan "ok" rfl rfl).2.2.2⟩

/-- A reachable state in which the proposed plan is still undecided but a
second prompt has been accepted and its worker is alive with its loop
registered: built by a planning run that returned a plan, followed by a new
prompt submission, with the loop registration done at the start of the new
orchestrator coroutine. -/
def staleState : CoordState :=
  { (run_async "Summarize the protocol documents" idlePendingState).1 with
    worker_loop := true }

/-- Counterexample to C5 as stated: approving the proposed plan in the
reachable state staleState, where another run is active, launches zero
re-execution runs, not exactly one. -/
theorem claim_C5_counterexample :
    staleState.pending_plan = some examplePlan ∧
    staleState.worker_running = true ∧
    (handle_approval_response true "ok" staleState).2.2 = none := by
  refine ⟨rfl, rfl, rfl⟩

lemma run_acts_blocked (m : Nat) (acts : List MicroAct) (st : CoordState)
    (sigs : List Sig) (ret : Option Bool) (wakes : Nat)
    (hblock : ¬ st.approval_event = some true) :
    run_acts m (.awaitApprovalEvent :: acts) st sigs ret wakes =
      ⟨.awaitApprovalEvent :: acts, st, sigs, ret, wakes⟩ := by
  cases m with
  | zero => rfl
  | succ m =>
    unfold run_acts
    rw [if_neg hblock]

/-- C1 amended: for an approval request raised by the gate while an agent
run is executing with its loop registered, provided no proposed plan is
awaiting its execution decision when the response arrives, a subsequent
submit of the approval response resumes the suspended gate exactly once and
the suspended call returns exactly the submitted boolean, for every
interleaving in which the response arrives after the request notification
was emitted (the background had executed at least the three actions up to
and including that emission); and in the gate body the wait primitive is
created (position zero) strictly before the request notification is emitted
(position two), so a response arriving between notification and suspension
is not lost. -/
theorem claim_C1_amended (s : CoordState) (action : String) (details : DVal)
    (k : Nat) (approved : Bool) (notes : String)
    (hp : s.pending_plan = none) (hw : s.worker_exists = true)
    (hl : s.worker_loop = true) (hk : 3 ≤ k) :
    (gate_run s action details k approved notes).ret = some approved ∧
    (gate_run s action details k approved notes).wakes = 1 ∧
    (request_approval_acts action details).get? 0 = some .createApprovalEvent ∧
    (request_approval_acts action details).get? 2
      = some (.emitSig (.approvalRequested action details)) := by
  refine ⟨?_, ?_, rfl, rfl⟩ <;>
  · rcases Nat.lt_or_ge k 4 with h4 | h4
    · have hk3 : k = 3 := by omega
      subst hk3
      simp [gate_run, run_acts, request_approval_acts, handle_approval_response,
        hp, hw, hl]
    · obtain ⟨m, rfl⟩ : ∃ m, k = m + 1 + 1 + 1 + 1 := ⟨k - 4, by omega⟩
      simp [gate_run, run_acts, request_approval_acts, handle_approval_response,
        hp, hw, hl, run_acts_blocked]

/-- A coordinator state during a normal gate wait: worker alive with loop
registered and no plan awaiting its decision. -/
def gateWaitState : CoordState :=
  { initCoordState with
    worker_exists := true
    worker_running := true
    worker_loop := true }

/-- Witness for C1 at a concrete state, interleaving and denial response. -/
theorem claim_C1_witness :
    (gate_run gateWaitState "send recruitment email" (DVal.dict []) 5 false "no").ret
        = some false ∧
    (gate_run gateWaitState "send recruitment email" (DVal.dict []) 5 false "no").wakes
        = 1 :=
  ⟨(claim_C1_amended gateWaitState "send recruitment email" (DVal.dict []) 5 false
      "no" rfl rfl rfl (by omega)).1,
   (claim_C1_amended gateWaitState "send recruitment email" (DVal.dict []) 5 false
      "no" rfl rfl rfl (by omega)).2.1⟩

/-- Counterexample to C1 as stated: in the reachable state staleState a gate
approval request is outstanding during an executing run, yet the submitted
response is consumed by the stale proposed plan, so the suspended execution
is resumed zero times and the gate never returns. -/
theorem claim_C1_counterexample :
    staleState.worker_running = true ∧
    staleState.pending_plan = some examplePlan ∧
    (gate_run staleState "send email to the sponsor" (DVal.dict []) 4 true "ok").ret
        = none ∧
    (gate_run staleState "send email to the sponsor" (DVal.dict []) 4 true "ok").wakes
        = 0 := by
  refine ⟨rfl, rfl, rfl, rfl⟩

/-- C2 amended: when the first agent invocation raises an error the code
classifies as an MCP startup failure (is_mcp_error, which inspects a group
through its members only and a plain exception through its cause chain), the
driver emits the tools-unavailable progress notification, resets the toolset
container to empty, and retries the same prompt exactly once without a
toolsets argument; the same single ledger row is used and on a successful
retry its committed statuses are running then completed, exactly one
completed row. An error not so classified is not retried: when it is an
Exception instance the outer handler fails the row, while a BaseException
only raise escapes the except Exception handler and leaves the row
committed in status running. -/
theorem claim_C2_amended (cfg : RunConfig) (prompt : String) (e : ExcTree)
    (oracle : Oracle) (t0 t1 : Nat) (s : CoordState)
    (hfirst : oracle.firstAttempt = .err e) :
    (is_mcp_error e = true →
      (run_orchestrator cfg prompt oracle t0 t1 s).invocations.map
          (fun i => i.prompt) = [prompt, prompt] ∧
      (run_orchestrator cfg prompt oracle t0 t1 s).invocations.map
          (fun i => i.toolsets.isNone) = [false, true] ∧
      (run_orchestrator cfg prompt oracle t0 t1 s).state.mcp_toolsets = some {} ∧
      (run_orchestrator cfg prompt oracle t0 t1 s).runsCreated = 1 ∧
      Sig.message "Assistant"
          "**MCP Unavailable**: Tool servers failed to start. Retrying without tools..."
        ∈ (run_orchestrator cfg prompt oracle t0 t1 s).sigs ∧
      (∀ out usage, oracle.retryAttempt = .ok out usage →
        (run_orchestrator cfg prompt oracle t0 t1 s).recordStates.map RunRecord.status
            = ["running", "completed"] ∧
        (run_orchestrator cfg prompt oracle t0 t1 s).raised = none)) ∧
    (is_mcp_error e = false →
      (run_orchestrator cfg prompt oracle t0 t1 s).invocations.map
          (fun i => i.prompt) = [prompt] ∧
      (run_orchestrator cfg prompt oracle t0 t1 s).raised = some e ∧
      (isExceptionInstance e = true →
        (run_orchestrator cfg prompt oracle t0 t1 s).recordStates.map RunRecord.status
          = ["running", "failed"]) ∧
      (isExceptionInstance e = false →
        (run_orchestrator cfg prompt oracle t0 t1 s).recordStates.map RunRecord.status
          = ["running"])) := by
  constructor
  · intro hmcp
    cases hret : oracle.retryAttempt with
    | ok out usage =>
      cases usage with
      | none =>
        simp [run_orchestrator, hfirst, hret, hmcp, send_progress,
          AgentDeps.get_active_mcp_servers, RunRecord.complete, RunRecord.fail]
      | some u =>
        simp [run_orchestrator, hfirst, hret, hmcp, send_progress,
          AgentDeps.get_active_mcp_servers, RunRecord.complete, RunRecord.fail]
    | err e2 =>
      rcases Bool.eq_false_or_eq_true (isExceptionInstance e2) with he2 | he2 <;>
        simp [run_orchestrator, hfirst, hret, hmcp, he2, send_progress,
          AgentDeps.get_active_mcp_servers, RunRecord.complete, RunRecord.fail]
  · intro hnm
    rcases Bool.eq_false_or_eq_true (isExceptionInstance e) with he | he <;>
      simp [run_orchestrator, hfirst, hnm, he, AgentDeps.get_active_mcp_servers,
        RunRecord.fail]

/-- An exception group whose members carry no MCP-typed failure but whose
own cause chain does: a BaseExceptionGroup over a ValueError, raised from an
OSError. -/
def cexGroupExc : ExcTree :=
  .group "unhandled errors in a TaskGroup (1 sub-exception)"
    [.exc false true "ValueError: bad plan state" none]
    (some (.exc true true "OSError: connection refused while starting MCP server" none))

/-- Environment inputs used in concrete run scenarios. -/
def cexRunConfig : RunConfig :=
  { project_id := 1, workspace_path := "/workspace/studyA",
    resolved_workspace_path := "/workspace/studyA", npx_available := true,
    brave_api_key := none }

/-- Counterexample to C2 as stated: cexGroupExc has an OSError in its cause
chain, so the stated classification marks it a tool-provisioning failure,
yet the driver does not retry it: one single invocation is made and the run
is failed, because is_mcp_error inspects a group through its members only
and never through the group's own cause. -/
theorem claim_C2_counterexample :
    spec_provisioning_classified cexGroupExc = true ∧
    is_mcp_error cexGroupExc = false ∧
    (run_orchestrator cexRunConfig "Draft the study protocol"
        ⟨.err cexGroupExc, .ok (.text "done") none⟩ 0 1 initCoordState).invocations.map
        (fun i => i.prompt) = ["Draft the study protocol"] ∧
    (run_orchestrator cexRunConfig "Draft the study protocol"
        ⟨.err cexGroupExc, .ok (.text "done") none⟩ 0 1 initCoordState).recordStates.map
        RunRecord.status = ["running", "failed"] := by
  refine ⟨rfl, rfl, rfl, rfl⟩

/-- A directly MCP-typed startup failure. -/
def witMcpExc : ExcTree :=
  .exc true true "TimeoutError: MCP server startup timed out" none

/-- Witness for C2 at a concrete timeout failure followed by a successful
retry: two invocations of the same prompt and one ledger row ending
completed. -/
theorem claim_C2_witness :
    (run_orchestrator cexRunConfig "Estimate study costs"
        ⟨.err witMcpExc, .ok (.text "done") none⟩ 0 1 initCoordState).invocations.map
        (fun i => i.prompt) = ["Estimate study costs", "Estimate study costs"] ∧
    (run_orchestrator cexRunConfig "Estimate study costs"
        ⟨.err witMcpExc, .ok (.text "done") none⟩ 0 1 initCoordState).recordStates.map
        RunRecord.status = ["running", "completed"] := by
  have h := claim_C2_amended cexRunConfig "Estimate study costs" witMcpExc
    ⟨.err witMcpExc, .ok (.text "done") none⟩ 0 1 initCoordState rfl
  exact ⟨(h.1 rfl).1, ((h.1 rfl).2.2.2.2.2 (.text "done") none rfl).1⟩

/-- Ledger status transitions allowed by the specification chain. -/
def statusEdge (a b : String) : Prop :=
  (a = "pending" ∧ b = "running") ∨
  (a = "running" ∧ (b = "completed" ∨ b = "failed"))

/-- Terminal ledger statuses. -/
def terminalStatus (st : String) : Prop := st = "completed" ∨ st = "failed"

/-- C6: along the committed states of the ledger row of any orchestrator
run, every status transition follows the chain pending to running to
completed or failed, a record in a terminal status is never changed again,
output is present exactly when the status is completed, error_message is
present exactly when the status is failed, and the start clock reading is
not after the end clock reading, assuming the two clock readings are
ordered. -/
theorem claim_C6 (cfg : RunConfig) (prompt : String) (oracle : Oracle)
    (t0 t1 : Nat) (s : CoordState) (h : t0 ≤ t1) :
    List.Chain' (fun a b => statusEdge a.status b.status ∧
        (terminalStatus a.status → b = a))
      (run_orchestrator cfg prompt oracle t0 t1 s).recordStates ∧
    (∀ r ∈ (run_orchestrator cfg prompt oracle t0 t1 s).recordStates,
      (r.output.isSome ↔ r.status = "completed") ∧
      (r.error_message.isSome ↔ r.status = "failed") ∧
      (∀ a ∈ r.started_at, ∀ b ∈ r.completed_at, a ≤ b)) := by
  cases hfa : oracle.firstAttempt with
  | ok out usage =>
    cases usage with
    | none =>
      simp [run_orchestrator, hfa, statusEdge, terminalStatus, RunRecord.complete,
        AgentDeps.get_active_mcp_servers, h]
    | some u =>
      simp [run_orchestrator, hfa, statusEdge, terminalStatus, RunRecord.complete,
        AgentDeps.get_active_mcp_servers, h]
  | err e =>
    rcases Bool.eq_false_or_eq_true (is_mcp_error e) with hm | hm
    case inr =>
      rcases Bool.eq_false_or_eq_true (isExceptionInstance e) with he | he <;>
        simp [run_orchestrator, hfa, hm, he, statusEdge, terminalStatus,
          RunRecord.fail, AgentDeps.get_active_mcp_servers, h]
    case inl =>
      cases hra : oracle.retryAttempt with
      | ok out usage =>
        cases usage with
        | none =>
          simp [run_orchestrator, hfa, hra, hm, statusEdge, terminalStatus,
            RunRecord.complete, send_progress, AgentDeps.get_active_mcp_servers, h]
        | some u =>
          simp [run_orchestrator, hfa, hra, hm, statusEdge, terminalStatus,
            RunRecord.complete, send_progress, AgentDeps.get_active_mcp_servers, h]
      | err e2 =>
        rcases Bool.eq_false_or_eq_true (isExceptionInstance e2) with he2 | he2 <;>
          simp [run_orchestrator, hfa, hra, hm, he2, statusEdge, terminalStatus,
            RunRecord.fail, send_progress, AgentDeps.get_active_mcp_servers, h]

/-- Witness for C6 at a concrete successful run with ordered clock readings. -/
theorem claim_C6_witness :
    List.Chain' (fun a b => statusEdge a.status b.status ∧
        (terminalStatus a.status → b = a))
      (run_orchestrator cexRunConfig "Plan enrollment"
        ⟨.ok (.text "done") none, .ok (.text "done") none⟩ 0 1
        initCoordState).recordStates :=
  (claim_C6 cexRunConfig "Plan enrollment"
    ⟨.ok (.text "done") none, .ok (.text "done") none⟩ 0 1 initCoordState
    (by omega)).1

/-- A three step plan used for concrete execution tracking. -/
def c4Plan : TaskPlan :=
  { goal := "Set up the enrollment study",
    steps :=
      [{ description := "Estimate costs", agent := "project_manager",
         requires_approval := false, inputs := [] },
       { description := "Draft the protocol", agent := "document_maker",
         requires_approval := true, inputs := [] },
       { description := "Email the sponsor", agent := "email_drafter",
         requires_approval := true, inputs := [] }],
    estimated_agents := ["project_manager", "document_maker", "email_drafter"] }

/-- A coordinator state executing c4Plan with the cursor reset. -/
def c4State : CoordState :=
  { initCoordState with
    worker_exists := true
    worker_running := true
    executing_plan := some c4Plan
    current_step_index := -1 }

/-- Delegation details used in the concrete tracking scenario. -/
def c4Detail : Nat → String := fun _ => "delegating the next step"

/-- Witness for C4 at the concrete three step plan: after three delegations
and a text completion, step one ends completed; after two delegations and an
error, step one ends failed and step two is never reported. -/
theorem claim_C4_witness :
    stepStatusOf ((deleg_iter c4Detail c4Plan.steps.length c4State).2
      ++ (on_agent_finished (some (.text "All steps done"))
            (deleg_iter c4Detail c4Plan.steps.length c4State).1).2) 1
        = some "completed" ∧
    stepStatusOf ((deleg_iter c4Detail 2 c4State).2
      ++ (on_agent_error "RuntimeError: delegation failed"
            (deleg_iter c4Detail 2 c4State).1).2) 1 = some "failed" ∧
    stepStatusOf ((deleg_iter c4Detail 2 c4State).2
      ++ (on_agent_error "RuntimeError: delegation failed"
            (deleg_iter c4Detail 2 c4State).1).2) 2 = none := by
  have h := claim_C4 c4Detail c4Plan c4State "All steps done"
    "RuntimeError: delegation failed" rfl rfl
  refine ⟨h.1.1 1 (by decide) (by decide), ?_, ?_⟩
  · have h2 := (h.2 2 (by decide) (by decide)).1
    simpa using h2
  · exact (h.2 2 (by decide) (by decide)).2.2.1 2 (by decide) (by decide)
